import Mathlib

/-!
Verification of the `Experiment` parallel experiment runner from
`smbio/experiment.py` (class `Experiment`).

The runner enumerates the cartesian product of declared parameter value
sequences (`configs`, built on `itertools.product`), executes a user-supplied
`task` once per configuration either serially (`__run_serial`) or through a
multiprocessing pool (`__run_mp`), and feeds each successful return value to a
user-supplied `result` aggregation callback on the orchestrating process.

Embedding notes:
  * Parameter values are an arbitrary type `α`; a configuration is a
    `List α` (the tuple produced by `itertools.product`), in declaration
    order of `self._params` (an `OrderedDict`, here an association list).
  * `task` and `result` are the subclass-supplied methods; they are passed
    as explicit function arguments of type `List α → Except String ρ` and
    `ρ → Except String Unit`.  An `Except.error s` models a raised Python
    exception whose printed traceback text is `s` (`traceback.format_exc`).
  * Console output is modelled as the list of printed lines, with the exact
    format strings of the source.  Error reports are additionally collected
    in a separate `errorsReported` list so they can be counted, and every
    `task` invocation is recorded in `taskCalls`, every `result` invocation
    in `resultCalls`.
  * The multiprocessing pool delivers completions in a nondeterministic
    order, so `runMP` takes the completion order as an explicit list
    parameter (a permutation of the dispatched configurations) and models
    callback delivery after the dispatch loop.  An exception escaping the
    completion callback `_cb` (i.e. raised by `result`) kills the pool's
    result-handler thread, so the run never completes normally; `runMP`
    returns `none` in that case.
-/

/-- The mutable instance state of the Python `Experiment` class:
`_silent`, `_params` (an `OrderedDict` of parameter name to value sequence),
`__completed` and `__num_configs` (both initialised to `0` in `__init__`). -/
structure Experiment (α : Type) where
  silent : Bool
  params : List (String × List α)
  completed : Nat
  numConfigs : Nat
deriving Repr

/-- Model of `itertools.product` over a list of value sequences: the cartesian product
in argument order, with the rightmost sequence varying fastest. -/
def pyProduct {α : Type} : List (List α) → List (List α)
  | [] => [[]]
  | vs :: rest => vs.flatMap (fun v => (pyProduct rest).map (fun c => v :: c))

/-- Model of `Experiment.configs`: `itertools.product(*self._params.values())`. -/
def Experiment.configs {α : Type} (e : Experiment α) : List (List α) :=
  pyProduct (e.params.map Prod.snd)

/-- Everything a run produces: the final instance state, the printed lines in
order, the list of `task` invocations, the list of values passed to `result`,
and the subsequence of printed lines that are error reports. -/
structure RunOut (α ρ : Type) where
  exp : Experiment α
  output : List String
  taskCalls : List (List α)
  resultCalls : List ρ
  errorsReported : List String

/-- Whether an `Except` models a normal (non-raising) Python call. -/
def exceptOk {ε β : Type} : Except ε β → Bool
  | .ok _ => true
  | .error _ => false

/-- The return value of an `Except`, when the call did not raise. -/
def exceptValue {ε β : Type} : Except ε β → Option β
  | .ok v => some v
  | .error _ => none

/-- Whether `self.result(self.task(config))` runs to completion: `task`
returns normally and `result` on its return value returns normally. -/
def fullSuccess {α ρ : Type} (task : List α → Except String ρ)
    (result : ρ → Except String Unit) (c : List α) : Bool :=
  match task c with
  | .ok v => exceptOk (result v)
  | .error _ => false

/-- The serial-mode per-configuration progress line
`'Experiment: completed %d tasks.' % self.__completed`. -/
def serialProgressLine (n : Nat) : String :=
  s!"Experiment: completed {n} tasks."

/-- The parallel-mode per-completion progress line
`'Completed %d/%d.' % (self.__completed, self.__num_configs)`. -/
def mpProgressLine (c n : Nat) : String :=
  s!"Completed {c}/{n}."

/-- The parallel-mode dispatch summary line
`'Experiment: queued %d tasks.' % self.__num_configs`. -/
def queuedLine (n : Nat) : String :=
  s!"Experiment: queued {n} tasks."

/-- One iteration of the `__run_serial` loop body for configuration `c`:
`try: self.result(self.task(config)); self.__completed += 1` with a bare
`except:` printing the traceback, followed (unless `_silent`) by
`print('Experiment: completed %d tasks.' % self.__completed)`. -/
def serialStep {α ρ : Type} (task : List α → Except String ρ)
    (result : ρ → Except String Unit) (st : RunOut α ρ) (c : List α) :
    RunOut α ρ :=
  let st0 := { st with taskCalls := st.taskCalls ++ [c] }
  let st1 :=
    match task c with
    | .error tb =>
        { st0 with output := st0.output ++ [tb],
                   errorsReported := st0.errorsReported ++ [tb] }
    | .ok v =>
        let st0 := { st0 with resultCalls := st0.resultCalls ++ [v] }
        match result v with
        | .error tb =>
            { st0 with output := st0.output ++ [tb],
                       errorsReported := st0.errorsReported ++ [tb] }
        | .ok _ =>
            { st0 with exp := { st0.exp with completed := st0.exp.completed + 1 } }
  if st1.exp.silent then st1
  else { st1 with output := st1.output ++ [serialProgressLine st1.exp.completed] }

/-- The final `print('Experiment: completed all tasks.')` shared by both run
modes, executed unless `_silent`. -/
def printAllDone {α ρ : Type} (st : RunOut α ρ) : RunOut α ρ :=
  if st.exp.silent then st
  else { st with output := st.output ++ ["Experiment: completed all tasks."] }

/-- Model of `Experiment.__run_serial`: reset `__completed` to 0 (note: `__num_configs`
is not touched), fold the loop body over `self.configs()`, then (unless
`_silent`) `print('Experiment: completed all tasks.')`. -/
def runSerial {α ρ : Type} (task : List α → Except String ρ)
    (result : ρ → Except String Unit) (e : Experiment α) : RunOut α ρ :=
  let e0 : Experiment α := { e with completed := 0 }
  printAllDone (e0.configs.foldl (serialStep task result)
    { exp := e0, output := [], taskCalls := [], resultCalls := [],
      errorsReported := [] })

/-- Delivery of one completed unit of work in `__run_mp`: the worker ran
`self._wrapper(configuration)`.  If `task` raised, `_wrapper` re-raises an
exception carrying the traceback text and the pool invokes the error callback
`_err`, which prints it.  Otherwise the pool invokes the callback `_cb`, which
increments `__completed`, prints `'Completed %d/%d.'` (unless `_silent`) and
calls `self.result(retval)`.  An exception raised by `result` escapes `_cb`
and kills the pool's result-handler thread, after which the pending
`result.wait()` calls never return: modelled as `none`. -/
def mpStep {α ρ : Type} (task : List α → Except String ρ)
    (result : ρ → Except String Unit) (st : RunOut α ρ) (c : List α) :
    Option (RunOut α ρ) :=
  let st0 := { st with taskCalls := st.taskCalls ++ [c] }
  match task c with
  | .error tb =>
      some { st0 with output := st0.output ++ [tb],
                      errorsReported := st0.errorsReported ++ [tb] }
  | .ok v =>
      let e1 : Experiment α := { st0.exp with completed := st0.exp.completed + 1 }
      let out1 := if e1.silent then st0.output
                  else st0.output ++ [mpProgressLine e1.completed e1.numConfigs]
      let st1 := { st0 with exp := e1, output := out1,
                            resultCalls := st0.resultCalls ++ [v] }
      match result v with
      | .ok _ => some st1
      | .error _ => none

/-- Delivery of a list of completions, in order, stopping (forever) if a
callback raises. -/
def mpLoop {α ρ : Type} (task : List α → Except String ρ)
    (result : ρ → Except String Unit) :
    RunOut α ρ → List (List α) → Option (RunOut α ρ)
  | st, [] => some st
  | st, c :: cs =>
      match mpStep task result st c with
      | none => none
      | some st1 => mpLoop task result st1 cs

/-- The state of `__run_mp` at the end of its dispatch loop, before any
completion has been delivered: `__completed` is reset to 0 but
`__num_configs` is NOT reset — it keeps its previous value and is
incremented once per dispatched configuration — and (unless `_silent`)
`'Experiment: queued %d tasks.' % self.__num_configs` has been printed. -/
def mpInit {α : Type} (ρ : Type) (e : Experiment α) : RunOut α ρ :=
  { exp :=
      { e with
        completed := 0
        numConfigs := e.numConfigs + e.configs.length }
    output :=
      if e.silent then []
      else [queuedLine (e.numConfigs + e.configs.length)]
    taskCalls := []
    resultCalls := []
    errorsReported := [] }

/-- Model of `Experiment.__run_mp`: reset `__completed` to 0 — but NOT `__num_configs`,
which keeps its previous value and is incremented once per dispatched
configuration — then (unless `_silent`)
`print('Experiment: queued %d tasks.' % self.__num_configs)`, then wait for
every unit to complete (`order` is the nondeterministic completion order, a
permutation of `self.configs()`), then (unless `_silent`)
`print('Experiment: completed all tasks.')`. -/
def runMP {α ρ : Type} (task : List α → Except String ρ)
    (result : ρ → Except String Unit) (e : Experiment α)
    (order : List (List α)) : Option (RunOut α ρ) :=
  match mpLoop task result (mpInit ρ e) order with
  | none => none
  | some st => some (printAllDone st)

/-- Model of `Experiment.run`: dispatch on the `mp` flag. -/
def Experiment.run {α ρ : Type} (e : Experiment α)
    (task : List α → Except String ρ) (result : ρ → Except String Unit)
    (useMP : Bool) (order : List (List α)) : Option (RunOut α ρ) :=
  if useMP then runMP task result e order else some (runSerial task result e)

/-! Section: Lemmas about the cartesian product -/

theorem pyProduct_length {α : Type} (ls : List (List α)) :
    (pyProduct ls).length = (ls.map List.length).prod := by
  induction ls with
  | nil => rfl
  | cons vs rest ih =>
      simp only [pyProduct, List.length_flatMap, List.map_map, List.map_cons,
        List.prod_cons]
      have h : (List.map (List.length ∘ fun v => (pyProduct rest).map
            (fun c => v :: c)) vs)
          = List.map (fun _ => (pyProduct rest).length) vs := by
        simp [Function.comp_def]
      rw [h, List.map_const', List.sum_replicate, smul_eq_mul, ih]

theorem mem_pyProduct_iff {α : Type} (vs : List α) (rest : List (List α))
    (c : List α) :
    c ∈ pyProduct (vs :: rest) ↔
      ∃ v ∈ vs, ∃ c' ∈ pyProduct rest, c = v :: c' := by
  simp [pyProduct, List.mem_flatMap, List.mem_map]
  constructor
  · rintro ⟨v, hv, c', hc', rfl⟩
    exact ⟨v, hv, c', hc', rfl⟩
  · rintro ⟨v, hv, c', hc', rfl⟩
    exact ⟨v, hv, c', hc', rfl⟩

theorem pyProduct_mem_length {α : Type} (ls : List (List α)) (c : List α)
    (hc : c ∈ pyProduct ls) : c.length = ls.length := by
  induction ls generalizing c with
  | nil =>
      simp [pyProduct] at hc
      simp [hc]
  | cons vs rest ih =>
      rcases (mem_pyProduct_iff vs rest c).1 hc with ⟨v, _, c', hc', rfl⟩
      simp [ih c' hc']

theorem pyProduct_mem_get {α : Type} (ls : List (List α)) (c : List α)
    (hc : c ∈ pyProduct ls) (i : Nat) (hi : i < ls.length)
    (hci : i < c.length) : c.get ⟨i, hci⟩ ∈ ls.get ⟨i, hi⟩ := by
  induction ls generalizing c i with
  | nil => simp at hi
  | cons vs rest ih =>
      rcases (mem_pyProduct_iff vs rest c).1 hc with ⟨v, hv, c', hc', rfl⟩
      cases i with
      | zero => simpa using hv
      | succ j =>
          simp only [List.get_cons_succ]
          exact ih c' hc' j (by simpa using hi) (by simpa using hci)

theorem pyProduct_eq_nil_of_mem_nil {α : Type} (ls : List (List α))
    (h : [] ∈ ls) : pyProduct ls = ([] : List (List α)) := by
  induction ls with
  | nil => simp at h
  | cons vs rest ih =>
      rcases List.mem_cons.1 h with h | h
      · subst h
        simp [pyProduct]
      · simp [pyProduct, ih h]

/-! Section: Characterisation of one serial loop iteration -/

theorem serialStep_exp_silent {α ρ : Type} (t : List α → Except String ρ)
    (r : ρ → Except String Unit) (st : RunOut α ρ) (c : List α) :
    (serialStep t r st c).exp.silent = st.exp.silent := by
  unfold serialStep
  repeat' split
  all_goals (by_cases hs : st.exp.silent = true <;> simp_all)

theorem serialStep_exp_params {α ρ : Type} (t : List α → Except String ρ)
    (r : ρ → Except String Unit) (st : RunOut α ρ) (c : List α) :
    (serialStep t r st c).exp.params = st.exp.params := by
  unfold serialStep
  repeat' split
  all_goals (by_cases hs : st.exp.silent = true <;> simp_all)

theorem serialStep_exp_numConfigs {α ρ : Type} (t : List α → Except String ρ)
    (r : ρ → Except String Unit) (st : RunOut α ρ) (c : List α) :
    (serialStep t r st c).exp.numConfigs = st.exp.numConfigs := by
  unfold serialStep
  repeat' split
  all_goals (by_cases hs : st.exp.silent = true <;> simp_all)

theorem serialStep_taskCalls {α ρ : Type} (t : List α → Except String ρ)
    (r : ρ → Except String Unit) (st : RunOut α ρ) (c : List α) :
    (serialStep t r st c).taskCalls = st.taskCalls ++ [c] := by
  unfold serialStep
  repeat' split
  all_goals (by_cases hs : st.exp.silent = true <;> simp_all)

theorem serialStep_resultCalls {α ρ : Type} (t : List α → Except String ρ)
    (r : ρ → Except String Unit) (st : RunOut α ρ) (c : List α) :
    (serialStep t r st c).resultCalls
      = st.resultCalls ++ (exceptValue (t c)).toList := by
  unfold serialStep
  repeat' split
  all_goals (by_cases hs : st.exp.silent = true <;> simp_all [exceptValue])

theorem serialStep_completed {α ρ : Type} (t : List α → Except String ρ)
    (r : ρ → Except String Unit) (st : RunOut α ρ) (c : List α) :
    (serialStep t r st c).exp.completed
      = st.exp.completed + (if fullSuccess t r c then 1 else 0) := by
  unfold serialStep fullSuccess
  repeat' split
  all_goals (by_cases hs : st.exp.silent = true <;> simp_all [exceptOk])

theorem serialStep_errors_length {α ρ : Type} (t : List α → Except String ρ)
    (r : ρ → Except String Unit) (st : RunOut α ρ) (c : List α) :
    (serialStep t r st c).errorsReported.length
      = st.errorsReported.length + (if fullSuccess t r c then 0 else 1) := by
  unfold serialStep fullSuccess
  repeat' split
  all_goals (by_cases hs : st.exp.silent = true <;> simp_all [exceptOk])

/-! Section: Characterisation of the whole serial loop -/

theorem foldl_serialStep_silent {α ρ : Type} (t : List α → Except String ρ)
    (r : ρ → Except String Unit) (cs : List (List α)) (st : RunOut α ρ) :
    (cs.foldl (serialStep t r) st).exp.silent = st.exp.silent := by
  induction cs generalizing st with
  | nil => rfl
  | cons c cs ih => rw [List.foldl_cons, ih, serialStep_exp_silent]

theorem foldl_serialStep_params {α ρ : Type} (t : List α → Except String ρ)
    (r : ρ → Except String Unit) (cs : List (List α)) (st : RunOut α ρ) :
    (cs.foldl (serialStep t r) st).exp.params = st.exp.params := by
  induction cs generalizing st with
  | nil => rfl
  | cons c cs ih => rw [List.foldl_cons, ih, serialStep_exp_params]

theorem foldl_serialStep_numConfigs {α ρ : Type} (t : List α → Except String ρ)
    (r : ρ → Except String Unit) (cs : List (List α)) (st : RunOut α ρ) :
    (cs.foldl (serialStep t r) st).exp.numConfigs = st.exp.numConfigs := by
  induction cs generalizing st with
  | nil => rfl
  | cons c cs ih => rw [List.foldl_cons, ih, serialStep_exp_numConfigs]

theorem foldl_serialStep_taskCalls {α ρ : Type} (t : List α → Except String ρ)
    (r : ρ → Except String Unit) (cs : List (List α)) (st : RunOut α ρ) :
    (cs.foldl (serialStep t r) st).taskCalls = st.taskCalls ++ cs := by
  induction cs generalizing st with
  | nil => simp
  | cons c cs ih =>
      rw [List.foldl_cons, ih, serialStep_taskCalls, List.append_assoc]
      rfl

theorem foldl_serialStep_resultCalls {α ρ : Type} (t : List α → Except String ρ)
    (r : ρ → Except String Unit) (cs : List (List α)) (st : RunOut α ρ) :
    (cs.foldl (serialStep t r) st).resultCalls
      = st.resultCalls ++ cs.filterMap (fun c => exceptValue (t c)) := by
  induction cs generalizing st with
  | nil => simp
  | cons c cs ih =>
      rw [List.foldl_cons, ih, serialStep_resultCalls, List.append_assoc]
      cases h : t c <;> simp [exceptValue, List.filterMap_cons, h]

theorem foldl_serialStep_completed {α ρ : Type} (t : List α → Except String ρ)
    (r : ρ → Except String Unit) (cs : List (List α)) (st : RunOut α ρ) :
    (cs.foldl (serialStep t r) st).exp.completed
      = st.exp.completed + cs.countP (fullSuccess t r) := by
  induction cs generalizing st with
  | nil => simp
  | cons c cs ih =>
      rw [List.foldl_cons, ih, serialStep_completed, List.countP_cons]
      by_cases h : fullSuccess t r c <;>
        simp [h, Nat.add_comm, Nat.add_assoc, Nat.add_left_comm]

theorem foldl_serialStep_errors_length {α ρ : Type}
    (t : List α → Except String ρ) (r : ρ → Except String Unit)
    (cs : List (List α)) (st : RunOut α ρ) :
    (cs.foldl (serialStep t r) st).errorsReported.length
      = st.errorsReported.length
        + cs.countP (fun c => !(fullSuccess t r c)) := by
  induction cs generalizing st with
  | nil => simp
  | cons c cs ih =>
      rw [List.foldl_cons, ih, serialStep_errors_length, List.countP_cons]
      by_cases h : fullSuccess t r c <;>
        simp [h, Nat.add_comm, Nat.add_assoc, Nat.add_left_comm]

/-! Section: The final bookkeeping print -/

theorem printAllDone_exp {α ρ : Type} (st : RunOut α ρ) :
    (printAllDone st).exp = st.exp := by
  unfold printAllDone
  split <;> rfl

theorem printAllDone_taskCalls {α ρ : Type} (st : RunOut α ρ) :
    (printAllDone st).taskCalls = st.taskCalls := by
  unfold printAllDone
  split <;> rfl

theorem printAllDone_resultCalls {α ρ : Type} (st : RunOut α ρ) :
    (printAllDone st).resultCalls = st.resultCalls := by
  unfold printAllDone
  split <;> rfl

theorem printAllDone_errorsReported {α ρ : Type} (st : RunOut α ρ) :
    (printAllDone st).errorsReported = st.errorsReported := by
  unfold printAllDone
  split <;> rfl

/-! Section: Characterisation of `runSerial` -/

theorem runSerial_exp_silent {α ρ : Type} (t : List α → Except String ρ)
    (r : ρ → Except String Unit) (e : Experiment α) :
    (runSerial t r e).exp.silent = e.silent := by
  simp [runSerial, printAllDone_exp, foldl_serialStep_silent]

theorem runSerial_exp_params {α ρ : Type} (t : List α → Except String ρ)
    (r : ρ → Except String Unit) (e : Experiment α) :
    (runSerial t r e).exp.params = e.params := by
  simp [runSerial, printAllDone_exp, foldl_serialStep_params]

theorem runSerial_exp_numConfigs {α ρ : Type} (t : List α → Except String ρ)
    (r : ρ → Except String Unit) (e : Experiment α) :
    (runSerial t r e).exp.numConfigs = e.numConfigs := by
  simp [runSerial, printAllDone_exp, foldl_serialStep_numConfigs]

theorem runSerial_taskCalls {α ρ : Type} (t : List α → Except String ρ)
    (r : ρ → Except String Unit) (e : Experiment α) :
    (runSerial t r e).taskCalls = e.configs := by
  simp [runSerial, printAllDone_taskCalls, foldl_serialStep_taskCalls,
    Experiment.configs]

theorem runSerial_resultCalls {α ρ : Type} (t : List α → Except String ρ)
    (r : ρ → Except String Unit) (e : Experiment α) :
    (runSerial t r e).resultCalls
      = e.configs.filterMap (fun c => exceptValue (t c)) := by
  simp [runSerial, printAllDone_resultCalls, foldl_serialStep_resultCalls,
    Experiment.configs]

theorem runSerial_completed {α ρ : Type} (t : List α → Except String ρ)
    (r : ρ → Except String Unit) (e : Experiment α) :
    (runSerial t r e).exp.completed = e.configs.countP (fullSuccess t r) := by
  simp [runSerial, printAllDone_exp, foldl_serialStep_completed,
    Experiment.configs]

theorem runSerial_errors_length {α ρ : Type} (t : List α → Except String ρ)
    (r : ρ → Except String Unit) (e : Experiment α) :
    (runSerial t r e).errorsReported.length
      = e.configs.countP (fun c => !(fullSuccess t r c)) := by
  simp [runSerial, printAllDone_errorsReported, foldl_serialStep_errors_length,
    Experiment.configs]

/-! Section: Characterisation of the multiprocessing completion loop -/

theorem mpStep_of_ok {α ρ : Type} (t : List α → Except String ρ)
    (r : ρ → Except String Unit) (st : RunOut α ρ) (c : List α)
    (hr : ∀ v, r v = Except.ok ()) :
    ∃ st1, mpStep t r st c = some st1
      ∧ st1.exp.silent = st.exp.silent
      ∧ st1.exp.params = st.exp.params
      ∧ st1.exp.numConfigs = st.exp.numConfigs
      ∧ st1.taskCalls = st.taskCalls ++ [c]
      ∧ st1.resultCalls = st.resultCalls ++ (exceptValue (t c)).toList
      ∧ st1.exp.completed
          = st.exp.completed + (if exceptOk (t c) then 1 else 0)
      ∧ st1.errorsReported.length
          = st.errorsReported.length + (if exceptOk (t c) then 0 else 1) := by
  unfold mpStep
  cases h : t c with
  | error tb =>
      refine ⟨_, rfl, ?_⟩
      simp [exceptValue, exceptOk]
  | ok v =>
      simp only [hr]
      refine ⟨_, rfl, ?_⟩
      by_cases hs : st.exp.silent = true <;>
        simp [exceptValue, exceptOk, hs]

theorem mpLoop_char {α ρ : Type} (t : List α → Except String ρ)
    (r : ρ → Except String Unit) (cs : List (List α)) (st : RunOut α ρ)
    (hr : ∀ v, r v = Except.ok ()) :
    ∃ st1, mpLoop t r st cs = some st1
      ∧ st1.exp.silent = st.exp.silent
      ∧ st1.exp.params = st.exp.params
      ∧ st1.exp.numConfigs = st.exp.numConfigs
      ∧ st1.taskCalls = st.taskCalls ++ cs
      ∧ st1.resultCalls
          = st.resultCalls ++ cs.filterMap (fun c => exceptValue (t c))
      ∧ st1.exp.completed
          = st.exp.completed + cs.countP (fun c => exceptOk (t c))
      ∧ st1.errorsReported.length
          = st.errorsReported.length
            + cs.countP (fun c => !(exceptOk (t c))) := by
  induction cs generalizing st with
  | nil => exact ⟨st, rfl, rfl, rfl, rfl, by simp, by simp, by simp, by simp⟩
  | cons c cs ih =>
      obtain ⟨stc, hstc, hsil, hpar, hnum, htc, hrc, hcomp, herr⟩ :=
        mpStep_of_ok t r st c hr
      obtain ⟨st1, hst1, hsil1, hpar1, hnum1, htc1, hrc1, hcomp1, herr1⟩ :=
        ih stc
      refine ⟨st1, ?_, ?_, ?_, ?_, ?_, ?_, ?_, ?_⟩
      · simp [mpLoop, hstc, hst1]
      · rw [hsil1, hsil]
      · rw [hpar1, hpar]
      · rw [hnum1, hnum]
      · rw [htc1, htc]
        simp
      · rw [hrc1, hrc, List.filterMap_cons]
        cases h : t c <;> simp [exceptValue, h]
      · rw [hcomp1, hcomp, List.countP_cons]
        by_cases h : exceptOk (t c) <;>
          simp [h, Nat.add_comm, Nat.add_assoc, Nat.add_left_comm]
      · rw [herr1, herr, List.countP_cons]
        by_cases h : exceptOk (t c) <;>
          simp [h, Nat.add_comm, Nat.add_assoc, Nat.add_left_comm]

theorem runMP_char {α ρ : Type} (t : List α → Except String ρ)
    (r : ρ → Except String Unit) (e : Experiment α) (order : List (List α))
    (hr : ∀ v, r v = Except.ok ()) :
    ∃ st, runMP t r e order = some st
      ∧ st.exp.silent = e.silent
      ∧ st.exp.params = e.params
      ∧ st.exp.numConfigs = e.numConfigs + e.configs.length
      ∧ st.taskCalls = order
      ∧ st.resultCalls = order.filterMap (fun c => exceptValue (t c))
      ∧ st.exp.completed = order.countP (fun c => exceptOk (t c))
      ∧ st.errorsReported.length
          = order.countP (fun c => !(exceptOk (t c))) := by
  obtain ⟨st1, hst1, hsil, hpar, hnum, htc, hrc, hcomp, herr⟩ :=
    mpLoop_char t r order (mpInit ρ e) hr
  refine ⟨printAllDone st1, ?_, ?_, ?_, ?_, ?_, ?_, ?_, ?_⟩
  · unfold runMP
    rw [hst1]
  · rw [printAllDone_exp, hsil]
    simp [mpInit]
  · rw [printAllDone_exp, hpar]
    simp [mpInit]
  · rw [printAllDone_exp, hnum]
    simp [mpInit]
  · rw [printAllDone_taskCalls, htc]
    simp [mpInit]
  · rw [printAllDone_resultCalls, hrc]
    simp [mpInit]
  · rw [printAllDone_exp, hcomp]
    simp [mpInit]
  · rw [printAllDone_errorsReported, herr]
    simp [mpInit]

/-! Section: Concrete fixtures used by witnesses and counterexamples -/

/-- The spec's worked scenario: parameter `x` over `[1, 2]` and parameter `y`
over `[10, 20]`, a fresh non-silent instance. -/
def expXY : Experiment Nat :=
  { silent := false
    params := [("x", [1, 2]), ("y", [10, 20])]
    completed := 0
    numConfigs := 0 }

/-- An instance with the same parameters as `expXY` but different counter
values. -/
def expXYcounters : Experiment Nat :=
  { silent := false
    params := [("x", [1, 2]), ("y", [10, 20])]
    completed := 7
    numConfigs := 9 }

/-- The spec scenario's task: multiply the parameter values. -/
def taskMul : List Nat → Except String Nat :=
  fun c => Except.ok (c.foldl (fun a b => a * b) 1)

/-- An aggregation callback that always succeeds. -/
def resultAccept : Nat → Except String Unit :=
  fun _ => Except.ok ()

/-- A task that raises (with traceback text) on the configuration `[1]` and
succeeds elsewhere. -/
def taskFailOn1 : List Nat → Except String Nat :=
  fun c => if c = [1] then Except.error "Traceback: boom" else Except.ok 7

/-! Section: C1 -/

/-- C1: for every `ParameterSet`, `configs()` yields exactly
s1·s2·…·sn tuples (the product of the declared value-sequence lengths), each
of length n with its i-th entry drawn from the i-th declared parameter's
values (cartesian product in declaration order), and `configs()` is computed
purely from the current `_params` — so two successive calls on an unchanged
`ParameterSet` yield the same sequence and mutate nothing.  (Stated without
the claim's non-emptiness restriction, which it does not need.) -/
theorem configs_cartesian_product {α : Type} (e : Experiment α) :
    e.configs.length = (e.params.map (fun p => p.2.length)).prod
    ∧ (∀ c ∈ e.configs, c.length = e.params.length)
    ∧ (∀ c ∈ e.configs, ∀ i, ∀ hp : i < e.params.length, ∀ hc : i < c.length,
        c.get ⟨i, hc⟩ ∈ (e.params.get ⟨i, hp⟩).2)
    ∧ (∀ e' : Experiment α, e.params = e'.params → e.configs = e'.configs) := by
  refine ⟨?_, ?_, ?_, ?_⟩
  · rw [Experiment.configs, pyProduct_length, List.map_map]
    rfl
  · intro c hc
    have h := pyProduct_mem_length (e.params.map Prod.snd) c hc
    simpa using h
  · intro c hc i hp hc'
    have hi : i < (e.params.map Prod.snd).length := by simpa using hp
    have h := pyProduct_mem_get (e.params.map Prod.snd) c hc i hi hc'
    simpa [List.get_eq_getElem, List.getElem_map] using h
  · intro e' h
    rw [Experiment.configs, Experiment.configs, h]

/-- Witness for C1 on the spec's scenario (`x` over `[1, 2]`, `y` over
`[10, 20]`): four configurations of length two, position 0 drawn from `x`'s
values, and the same sequence on a second call with unchanged parameters. -/
theorem configs_cartesian_product_witness :
    expXY.configs.length = (expXY.params.map (fun p => p.2.length)).prod
    ∧ expXY.configs.length = 4
    ∧ ([1, 10] : List Nat).length = expXY.params.length
    ∧ ([1, 10] : List Nat).get ⟨0, by decide⟩
        ∈ (expXY.params.get ⟨0, by decide⟩).2
    ∧ expXY.configs = expXYcounters.configs := by
  refine ⟨(configs_cartesian_product expXY).1, ?_, ?_, ?_, ?_⟩
  · rw [(configs_cartesian_product expXY).1]
    decide
  · exact (configs_cartesian_product expXY).2.1 [1, 10] (by decide)
  · exact (configs_cartesian_product expXY).2.2.1 [1, 10] (by decide) 0
      (by decide) (by decide)
  · exact (configs_cartesian_product expXY).2.2.2 expXYcounters rfl

/-! Section: Helper counting lemmas -/

theorem filterMap_exceptValue_length {α ρ : Type}
    (t : List α → Except String ρ) (cs : List (List α)) :
    (cs.filterMap (fun c => exceptValue (t c))).length
      = cs.countP (fun c => exceptOk (t c)) := by
  induction cs with
  | nil => rfl
  | cons c cs ih =>
      rw [List.filterMap_cons, List.countP_cons]
      cases h : t c with
      | error tb =>
          simp [show exceptValue (Except.error tb : Except String ρ) = none
              from rfl,
            show exceptOk (Except.error tb : Except String ρ) = false
              from rfl, ih]
      | ok v =>
          simp [show exceptValue (Except.ok v : Except String ρ) = some v
              from rfl,
            show exceptOk (Except.ok v : Except String ρ) = true
              from rfl, ih, Nat.add_comm]

theorem countP_add_countP_not {β : Type} (p : β → Bool) (l : List β) :
    l.countP p + l.countP (fun b => !(p b)) = l.length := by
  induction l with
  | nil => rfl
  | cons b l ih =>
      rw [List.countP_cons, List.countP_cons]
      by_cases h : p b <;>
        simp [h, ← ih, Nat.add_comm, Nat.add_assoc, Nat.add_left_comm]

theorem fullSuccess_eq_exceptOk {α ρ : Type} (t : List α → Except String ρ)
    (r : ρ → Except String Unit) (hr : ∀ v, r v = Except.ok ())
    (c : List α) : fullSuccess t r c = exceptOk (t c) := by
  unfold fullSuccess
  cases h : t c <;> simp [exceptOk, hr]

/-! Section: C10 -/

/-- C10: in sequential mode the bare `except:` also catches exceptions raised
by the aggregation callback `result()`: for every experiment, every
configuration is still processed (`taskCalls` is all of `configs()`),
`result` is invoked exactly once per configuration whose task succeeded (even
those whose aggregation then raises), exactly one error report is printed for
each configuration whose task or aggregation raised, and `__completed` counts
only the configurations for which both `task` and `result` returned normally
— a configuration whose task succeeds but whose aggregation fails is counted
as a failure, not a success. -/
theorem serial_result_error_caught {α ρ : Type} (t : List α → Except String ρ)
    (r : ρ → Except String Unit) (e : Experiment α) :
    (runSerial t r e).taskCalls = e.configs
    ∧ (runSerial t r e).resultCalls
        = e.configs.filterMap (fun c => exceptValue (t c))
    ∧ (runSerial t r e).exp.completed = e.configs.countP (fullSuccess t r)
    ∧ (runSerial t r e).errorsReported.length
        = e.configs.countP (fun c => !(fullSuccess t r c)) :=
  ⟨runSerial_taskCalls t r e, runSerial_resultCalls t r e,
   runSerial_completed t r e, runSerial_errors_length t r e⟩

/-! Section: C2 -/

/-- C2: when every task invocation succeeds (and aggregation returns
normally), `result()` is invoked exactly once per configuration with that
configuration's task return value — in configuration order in sequential
mode, in a permutation of it in parallel mode (any completion order) — and
the `__completed` counter equals the number of configurations at the end of
the run, in both modes. -/
theorem run_all_success_aggregates_each {α ρ : Type}
    (t : List α → Except String ρ) (r : ρ → Except String Unit)
    (e : Experiment α) (ht : ∀ c ∈ e.configs, exceptOk (t c) = true)
    (hr : ∀ v, r v = Except.ok ()) :
    (runSerial t r e).resultCalls
        = e.configs.filterMap (fun c => exceptValue (t c))
    ∧ (runSerial t r e).resultCalls.length = e.configs.length
    ∧ (runSerial t r e).exp.completed = e.configs.length
    ∧ ∀ order, order.Perm e.configs →
        ∃ st, runMP t r e order = some st
          ∧ st.resultCalls.Perm
              (e.configs.filterMap (fun c => exceptValue (t c)))
          ∧ st.resultCalls.length = e.configs.length
          ∧ st.exp.completed = e.configs.length := by
  have hcount : e.configs.countP (fun c => exceptOk (t c))
      = e.configs.length := List.countP_eq_length.2 (by simpa using ht)
  refine ⟨runSerial_resultCalls t r e, ?_, ?_, ?_⟩
  · rw [runSerial_resultCalls, filterMap_exceptValue_length, hcount]
  · rw [runSerial_completed]
    have : e.configs.countP (fullSuccess t r)
        = e.configs.countP (fun c => exceptOk (t c)) :=
      List.countP_congr (fun c _ => by rw [fullSuccess_eq_exceptOk t r hr c])
    rw [this, hcount]
  · intro order hord
    obtain ⟨st, hst, _, _, _, _, hrc, hcomp, _⟩ := runMP_char t r e order hr
    refine ⟨st, hst, ?_, ?_, ?_⟩
    · rw [hrc]
      exact hord.filterMap _
    · rw [hrc, filterMap_exceptValue_length, hord.countP_eq, hcount]
    · rw [hcomp, hord.countP_eq, hcount]

/-- Witness for C2 on the spec's scenario: serial aggregation receives
`[10, 20, 20, 40]` in configuration order with counter 4; with reversed
completion order, parallel mode aggregates a permutation of the same values
with counter 4. -/
theorem run_all_success_aggregates_each_witness :
    (runSerial taskMul resultAccept expXY).resultCalls = [10, 20, 20, 40]
    ∧ (runSerial taskMul resultAccept expXY).exp.completed = 4
    ∧ ∃ st, runMP taskMul resultAccept expXY expXY.configs.reverse = some st
        ∧ st.resultCalls.Perm [10, 20, 20, 40]
        ∧ st.exp.completed = 4 := by
  have h := run_all_success_aggregates_each taskMul resultAccept expXY
    (by decide) (fun _ => rfl)
  refine ⟨?_, ?_, ?_⟩
  · rw [h.1]
    decide
  · rw [h.2.2.1]
    decide
  · obtain ⟨st, hst, hperm, _, hcomp⟩ :=
      h.2.2.2 expXY.configs.reverse (List.reverse_perm _)
    refine ⟨st, hst, ?_, ?_⟩
    · have : expXY.configs.filterMap (fun c => exceptValue (taskMul c))
          = [10, 20, 20, 40] := by decide
      rwa [this] at hperm
    · rw [hcomp]
      decide

/-! Section: C3 -/

/-- A one-parameter experiment over `[0, 1, 2]` whose task (`taskFailOn1`)
raises on the middle configuration `[1]`. -/
def expFail : Experiment Nat :=
  { silent := false
    params := [("x", [0, 1, 2])]
    completed := 0
    numConfigs := 0 }

/-- C3: when m of the k task invocations raise (and aggregation itself
returns normally), aggregation is invoked exactly k−m times — only for the
succeeding configurations — exactly m failure reports are printed, every
configuration is still processed (one failure never aborts the rest), and the
run completes normally in both modes (sequential `runSerial` is total;
parallel `runMP` returns `some`). -/
theorem run_failure_reports_counted {α ρ : Type}
    (t : List α → Except String ρ) (r : ρ → Except String Unit)
    (e : Experiment α) (hr : ∀ v, r v = Except.ok ()) :
    (runSerial t r e).taskCalls = e.configs
    ∧ (runSerial t r e).resultCalls.length
        = e.configs.length - e.configs.countP (fun c => !(exceptOk (t c)))
    ∧ (runSerial t r e).errorsReported.length
        = e.configs.countP (fun c => !(exceptOk (t c)))
    ∧ ∀ order, order.Perm e.configs →
        ∃ st, runMP t r e order = some st
          ∧ st.taskCalls.Perm e.configs
          ∧ st.resultCalls.length
              = e.configs.length - e.configs.countP (fun c => !(exceptOk (t c)))
          ∧ st.errorsReported.length
              = e.configs.countP (fun c => !(exceptOk (t c))) := by
  have hsplit := countP_add_countP_not (fun c => exceptOk (t c)) e.configs
  refine ⟨runSerial_taskCalls t r e, ?_, ?_, ?_⟩
  · rw [runSerial_resultCalls, filterMap_exceptValue_length]
    omega
  · rw [runSerial_errors_length]
    exact List.countP_congr
      (fun c _ => by rw [fullSuccess_eq_exceptOk t r hr c])
  · intro order hord
    obtain ⟨st, hst, _, _, _, htc, hrc, _, herr⟩ := runMP_char t r e order hr
    refine ⟨st, hst, ?_, ?_, ?_⟩
    · rw [htc]
      exact hord
    · rw [hrc, filterMap_exceptValue_length, hord.countP_eq]
      omega
    · rw [herr, hord.countP_eq]

/-- Witness for C3: with three configurations of which the middle one fails,
both modes aggregate twice, report one failure, and complete normally. -/
theorem run_failure_reports_counted_witness :
    (runSerial taskFailOn1 resultAccept expFail).taskCalls = [[0], [1], [2]]
    ∧ (runSerial taskFailOn1 resultAccept expFail).resultCalls.length = 2
    ∧ (runSerial taskFailOn1 resultAccept expFail).errorsReported.length = 1
    ∧ ∃ st, runMP taskFailOn1 resultAccept expFail expFail.configs.reverse
          = some st
        ∧ st.taskCalls.Perm [[0], [1], [2]]
        ∧ st.resultCalls.length = 2
        ∧ st.errorsReported.length = 1 := by
  have h := run_failure_reports_counted taskFailOn1 resultAccept expFail
    (fun _ => rfl)
  refine ⟨?_, ?_, ?_, ?_⟩
  · rw [h.1]
    decide
  · rw [h.2.1]
    decide
  · rw [h.2.2.1]
    decide
  · obtain ⟨st, hst, htc, hrc, herr⟩ :=
      h.2.2.2 expFail.configs.reverse (List.reverse_perm _)
    refine ⟨st, hst, ?_, ?_, ?_⟩
    · have : expFail.configs = [[0], [1], [2]] := by decide
      rwa [this] at htc
    · rw [hrc]
      decide
    · rw [herr]
      decide

/-! Section: C7 -/

/-- C7: for every experiment definition (with aggregation that returns
normally — the completion callback must not raise for the parallel run to
terminate), a parallel run under any completion order aggregates exactly the
same multiset of task results as the sequential run; the order may differ but
the multisets coincide, whether or not some tasks fail. -/
theorem mp_serial_same_multiset {α ρ : Type}
    (t : List α → Except String ρ) (r : ρ → Except String Unit)
    (e : Experiment α) (hr : ∀ v, r v = Except.ok ())
    (order : List (List α)) (hord : order.Perm e.configs) :
    ∃ st, runMP t r e order = some st
      ∧ (st.resultCalls : Multiset ρ)
          = ((runSerial t r e).resultCalls : Multiset ρ) := by
  obtain ⟨st, hst, _, _, _, _, hrc, _, _⟩ := runMP_char t r e order hr
  refine ⟨st, hst, ?_⟩
  rw [Multiset.coe_eq_coe, hrc, runSerial_resultCalls]
  exact hord.filterMap _

/-- Witness for C7 on the spec's scenario with reversed completion order:
the parallel multiset of aggregated results equals the serial one. -/
theorem mp_serial_same_multiset_witness :
    ∃ st, runMP taskMul resultAccept expXY expXY.configs.reverse = some st
      ∧ (st.resultCalls : Multiset Nat)
          = ((runSerial taskMul resultAccept expXY).resultCalls
              : Multiset Nat) :=
  mp_serial_same_multiset taskMul resultAccept expXY (fun _ => rfl)
    expXY.configs.reverse (List.reverse_perm _)

/-! Section: C8 -/

/-- A fresh experiment with zero declared parameters. -/
def expNoParams : Experiment Nat :=
  { silent := false
    params := []
    completed := 0
    numConfigs := 0 }

/-- C8: with zero declared parameters, `configs()` yields exactly one
configuration — the empty tuple — and a run in either mode invokes `task`
exactly once, with the empty tuple, and the aggregation callback exactly
once, with its return value. -/
theorem zero_params_single_run {α ρ : Type} (t : List α → Except String ρ)
    (r : ρ → Except String Unit) (e : Experiment α) (v : ρ)
    (hp : e.params = []) (htv : t [] = Except.ok v)
    (hr : ∀ u, r u = Except.ok ()) :
    e.configs = [[]]
    ∧ (runSerial t r e).taskCalls = [[]]
    ∧ (runSerial t r e).resultCalls = [v]
    ∧ (runSerial t r e).exp.completed = 1
    ∧ ∀ order, order.Perm e.configs →
        ∃ st, runMP t r e order = some st
          ∧ st.taskCalls = [[]]
          ∧ st.resultCalls = [v]
          ∧ st.exp.completed = 1 := by
  have hconf : e.configs = [[]] := by
    rw [Experiment.configs, hp]
    rfl
  have hfv : exceptValue (t []) = some v := by rw [htv]; rfl
  have hfo : exceptOk (t []) = true := by rw [htv]; rfl
  have hfs : fullSuccess t r [] = true := by
    rw [fullSuccess_eq_exceptOk t r hr, hfo]
  refine ⟨hconf, ?_, ?_, ?_, ?_⟩
  · rw [runSerial_taskCalls, hconf]
  · rw [runSerial_resultCalls, hconf, List.filterMap_cons, hfv]
    rfl
  · rw [runSerial_completed, hconf, List.countP_cons, hfs]
    rfl
  · intro order hord
    rw [hconf] at hord
    have horder : order = [[]] := List.perm_singleton.1 hord
    subst horder
    obtain ⟨st, hst, _, _, _, htc, hrc, hcomp, _⟩ :=
      runMP_char t r e [[]] hr
    refine ⟨st, hst, htc, ?_, ?_⟩
    · rw [hrc, List.filterMap_cons, hfv]
      rfl
    · rw [hcomp, List.countP_cons, hfo]
      rfl

/-- Witness for C8: the zero-parameter experiment runs `taskMul` once on the
empty tuple (product 1) and aggregates once, in both modes. -/
theorem zero_params_single_run_witness :
    expNoParams.configs = [[]]
    ∧ (runSerial taskMul resultAccept expNoParams).taskCalls = [[]]
    ∧ (runSerial taskMul resultAccept expNoParams).resultCalls = [1]
    ∧ (runSerial taskMul resultAccept expNoParams).exp.completed = 1
    ∧ ∃ st, runMP taskMul resultAccept expNoParams [[]] = some st
        ∧ st.taskCalls = [[]]
        ∧ st.resultCalls = [1]
        ∧ st.exp.completed = 1 := by
  have h := zero_params_single_run taskMul resultAccept expNoParams 1
    rfl rfl (fun _ => rfl)
  exact ⟨h.1, h.2.1, h.2.2.1, h.2.2.2.1,
    h.2.2.2.2 [[]] (by rw [h.1])⟩

/-! Section: C9 -/

/-- A fresh non-silent experiment with one declared parameter whose value
sequence is empty. -/
def expEmptyParam : Experiment Nat :=
  { silent := false
    params := [("x", [])]
    completed := 0
    numConfigs := 0 }

/-- Counterexample to C9 as stated: in sequential mode a zero-configuration
run prints only `'Experiment: completed all tasks.'` — the
`'Experiment: queued 0 tasks.'` bookkeeping line is printed by the
multiprocessing path only, so `run(mp=False)` does not emit it. -/
theorem empty_param_serial_no_queued_line :
    (runSerial taskMul resultAccept expEmptyParam).output
      = ["Experiment: completed all tasks."]
    ∧ "Experiment: queued 0 tasks."
        ∉ (runSerial taskMul resultAccept expEmptyParam).output := by
  constructor
  · rfl
  · decide

/-- C9 (amended): with any declared parameter whose value sequence is empty,
`configs()` is empty and a run in either mode performs zero task invocations,
zero aggregation invocations and zero failure reports; a non-silent parallel
run on a fresh instance prints exactly the `'Experiment: queued 0 tasks.'`
and `'Experiment: completed all tasks.'` bookkeeping lines, while a
non-silent sequential run prints only `'Experiment: completed all tasks.'`
(no queued line). -/
theorem empty_param_zero_configs {α ρ : Type} (t : List α → Except String ρ)
    (r : ρ → Except String Unit) (e : Experiment α)
    (hp : ∃ p ∈ e.params, p.2 = []) :
    e.configs = []
    ∧ (runSerial t r e).taskCalls = []
    ∧ (runSerial t r e).resultCalls = []
    ∧ (runSerial t r e).errorsReported = []
    ∧ (e.silent = false →
        (runSerial t r e).output = ["Experiment: completed all tasks."])
    ∧ ∃ st, runMP t r e [] = some st
        ∧ st.taskCalls = []
        ∧ st.resultCalls = []
        ∧ st.errorsReported = []
        ∧ (e.silent = false → e.numConfigs = 0 →
            st.output = ["Experiment: queued 0 tasks.",
                         "Experiment: completed all tasks."]) := by
  obtain ⟨p, hmem, hnil⟩ := hp
  have hconf : e.configs = [] := by
    rw [Experiment.configs]
    exact pyProduct_eq_nil_of_mem_nil _
      (by simpa [hnil] using List.mem_map_of_mem Prod.snd hmem)
  have hserial : runSerial t r e
      = printAllDone (ρ := ρ)
          { exp := { e with completed := 0 }
            output := []
            taskCalls := []
            resultCalls := []
            errorsReported := [] } := by
    unfold runSerial
    have h0 : ({ e with completed := 0 } : Experiment α).configs = [] := by
      rw [Experiment.configs]
      rw [Experiment.configs] at hconf
      exact hconf
    simp only [h0, List.foldl_nil]
  refine ⟨hconf, ?_, ?_, ?_, ?_, ?_⟩
  · rw [runSerial_taskCalls, hconf]
  · rw [runSerial_resultCalls, hconf]
    rfl
  · rw [hserial]
    rw [printAllDone_errorsReported]
  · intro hsil
    rw [hserial]
    unfold printAllDone
    simp [hsil]
  · refine ⟨printAllDone (mpInit ρ e), rfl, ?_, ?_, ?_, ?_⟩
    · rw [printAllDone_taskCalls]
      rfl
    · rw [printAllDone_resultCalls]
      rfl
    · rw [printAllDone_errorsReported]
      rfl
    · intro hsil hnum
      have hq : queuedLine 0 = "Experiment: queued 0 tasks." := rfl
      unfold printAllDone mpInit
      simp [hsil, hnum, hconf, hq]

/-- Witness for the amended C9 on a fresh non-silent instance with `x` over
the empty sequence: zero invocations, the parallel bookkeeping lines, and the
single serial bookkeeping line. -/
theorem empty_param_zero_configs_witness :
    expEmptyParam.configs = []
    ∧ (runSerial taskMul resultAccept expEmptyParam).taskCalls = []
    ∧ (runSerial taskMul resultAccept expEmptyParam).resultCalls = []
    ∧ ∃ st, runMP taskMul resultAccept expEmptyParam [] = some st
        ∧ st.taskCalls = []
        ∧ st.output = ["Experiment: queued 0 tasks.",
                       "Experiment: completed all tasks."] := by
  have h := empty_param_zero_configs taskMul resultAccept expEmptyParam
    ⟨("x", []), by decide, rfl⟩
  obtain ⟨st, hst, htc, _, _, hout⟩ := h.2.2.2.2.2
  exact ⟨h.1, h.2.1, h.2.2.1, st, hst, htc, hout rfl rfl⟩

/-! Section: C6 -/

/-- A fresh non-silent experiment with a single configuration. -/
def expX1 : Experiment Nat :=
  { silent := false
    params := [("x", [5])]
    completed := 0
    numConfigs := 0 }

/-- Counterexample to C6 as stated: a non-silent sequential run of a
one-configuration experiment prints `'Experiment: completed 1 tasks.'` after
its configuration — not the parallel-mode progress line
`'Completed 1/1.'` (nor `'Completed 1/0.'` with the untouched
`__num_configs`), so sequential mode does NOT emit the same
`Completed {completed}/{total}.` line as parallel mode. -/
theorem serial_progress_line_format_counterexample :
    (runSerial taskMul resultAccept expX1).output
      = ["Experiment: completed 1 tasks.", "Experiment: completed all tasks."]
    ∧ mpProgressLine 1 1 = "Completed 1/1."
    ∧ "Completed 1/1." ∉ (runSerial taskMul resultAccept expX1).output
    ∧ "Completed 1/0." ∉ (runSerial taskMul resultAccept expX1).output := by
  refine ⟨rfl, rfl, by decide, by decide⟩

/-- C6 (amended): in sequential mode with `silent == false`, after every
configuration — whether its task/aggregation succeeded or failed — the loop
body appends exactly one progress line, of the serial-specific form
`'Experiment: completed {completedCount} tasks.'` (preceded by at most one
error report), which carries the completed count but not the total
configuration count; the `'Completed {c}/{n}.'` form is printed by the
parallel path only. -/
theorem serial_progress_line_after_each {α ρ : Type}
    (t : List α → Except String ρ) (r : ρ → Except String Unit)
    (st : RunOut α ρ) (c : List α) (h : st.exp.silent = false) :
    ∃ mid : List String, mid.length ≤ 1
      ∧ (serialStep t r st c).output
          = st.output ++ mid
            ++ [serialProgressLine (serialStep t r st c).exp.completed] := by
  unfold serialStep
  cases ht : t c with
  | error tb =>
      refine ⟨[tb], by simp, ?_⟩
      simp [h]
  | ok v =>
      cases hr : r v with
      | error tb =>
          refine ⟨[tb], by simp, ?_⟩
          simp [h, hr]
      | ok u =>
          refine ⟨[], by simp, ?_⟩
          simp [h, hr]

/-- The loop state of a fresh non-silent serial run of `expX1` before its
first (and only) configuration. -/
def runOutX1 : RunOut Nat Nat :=
  { exp := expX1
    output := []
    taskCalls := []
    resultCalls := []
    errorsReported := [] }

/-- Witness for the amended C6 at the concrete first iteration of `expX1`'s
serial run. -/
theorem serial_progress_line_after_each_witness :
    ∃ mid : List String, mid.length ≤ 1
      ∧ (serialStep taskMul resultAccept runOutX1 [5]).output
          = runOutX1.output ++ mid
            ++ [serialProgressLine
                  (serialStep taskMul resultAccept runOutX1 [5]).exp.completed] :=
  serial_progress_line_after_each taskMul resultAccept runOutX1 [5] rfl

/-! Section: C4 -/

/-- The body of the unoverridden abstract `task` method: `pass`, which
returns Python `None` (here `none`) for every configuration without raising.
In Python 3 the class's Python-2-style `__metaclass__ = ABCMeta` attribute is
inert, so nothing prevents this body from being called. -/
def defaultTask {α : Type} : List α → Except String (Option Unit) :=
  fun _ => Except.ok none

/-- The body of the unoverridden abstract `result` method: `pass`, returning
`None` without raising. -/
def defaultResult : Option Unit → Except String Unit :=
  fun _ => Except.ok ()

/-- A fresh experiment instance on which neither abstract method has been
overridden. -/
def expAbstract : Experiment Nat :=
  { silent := false
    params := [("x", [0])]
    completed := 0
    numConfigs := 0 }

/-- C4 fails on the code: `class Experiment(object)` sets the Python-2-style
attribute `__metaclass__ = ABCMeta`, which Python 3 ignores, so the
`abstractmethod` contract is never enforced — `run()` on an instance without
`task`/`result` overridden raises nothing and is silently "ignored": both
modes run to completion, invoking the abstract `pass` bodies once per
configuration (aggregating `None`), with no error of any kind. -/
theorem run_without_overrides_completes :
    (runSerial defaultTask defaultResult expAbstract).taskCalls = [[0]]
    ∧ (runSerial defaultTask defaultResult expAbstract).resultCalls = [none]
    ∧ (runSerial defaultTask defaultResult expAbstract).errorsReported = []
    ∧ (runSerial defaultTask defaultResult expAbstract).exp.completed = 1
    ∧ (runMP defaultTask defaultResult expAbstract expAbstract.configs).map
          (fun st => (st.taskCalls, st.resultCalls, st.exp.completed))
        = some ([[0]], [none], 1) := by
  decide

/-! Section: C5 -/

/-- A fresh non-silent experiment with two configurations, run twice in
parallel mode. -/
def expTwo : Experiment Nat :=
  { silent := false
    params := [("x", [1, 2])]
    completed := 0
    numConfigs := 0 }

/-- The final state of a first parallel run of `expTwo`. -/
def firstRunTwo : Option (RunOut Nat Nat) :=
  runMP taskMul resultAccept expTwo expTwo.configs

/-- The final state of a second parallel run on the instance left by the
first. -/
def secondRunTwo : Option (RunOut Nat Nat) :=
  firstRunTwo.bind (fun st => runMP taskMul resultAccept st.exp st.exp.configs)

/-- C5 fails on the code: `__run_mp` resets `__completed` but never resets
`__num_configs`, which accumulates across runs — after a second parallel run
of the same 2-configuration experiment, `__num_configs` is 4 although the run
has 2 configurations, and the run prints `'Experiment: queued 4 tasks.'`
(never `'... queued 2 ...'`), so the progress denominator does not equal that
run's configuration count.  (`__completed` IS reset, ending at 2.) -/
theorem num_configs_not_reset_across_runs :
    firstRunTwo.map (fun st => st.exp.numConfigs) = some 2
    ∧ secondRunTwo.map (fun st => st.exp.numConfigs) = some 4
    ∧ secondRunTwo.map (fun st => st.exp.completed) = some 2
    ∧ secondRunTwo.map (fun st => st.exp.configs.length) = some 2
    ∧ secondRunTwo.map (fun st => decide (queuedLine 4 ∈ st.output))
        = some true
    ∧ secondRunTwo.map (fun st => decide (queuedLine 2 ∈ st.output))
        = some false := by
  decide
